import Mathlib

set_option maxRecDepth 16384

/-!
Shallow embedding of `src/main.rs` of read-file-block-way: an ext4 structural
decoder (superblock, block-group descriptor, inode, extent root, directory
entries) over a byte-addressable read-only source, together with theorems
checking the specification's claims against it.

Conventions of the embedding:
* Machine integers are modelled as `Nat`; all concrete inputs in the theorems
  stay far below every relevant width, so wrap-around never occurs on them.
* A `positioned_io` read source (`ReadAt`) is a `ByteSrc`: a partial byte map
  plus an optional size, with `ByteSrc.slice` mirroring `Slice::new`.
* Fallible Rust code returns `Except RErr`; an out-of-bounds read is
  `RErr.ioErr`, and a Rust `panic!`/`assert_eq!`/`unwrap` failure is the
  distinct value `RErr.panicked` (a panic is not a returned error in Rust;
  keeping it as a separate constructor lets theorems tell the two apart).
* The unbounded `loop` in `Inode::dir_entries` is modelled with explicit fuel;
  a result of `none` means the loop has not terminated within the given fuel
  (for any fuel, in the non-termination theorems).
-/

abbrev Bytes := List Nat

inductive RErr where
  | ioErr : RErr
  | panicked : RErr
deriving DecidableEq

abbrev RResult (α : Type) := Except RErr α

def liftRead {α : Type} : Option α → RResult α
  | some a => .ok a
  | none => .error .ioErr

/-- A byte-addressable read source: `positioned_io::ReadAt` together with
`positioned_io::Size`. `readByte p = none` models a failed read at `p`. -/
structure ByteSrc where
  readByte : Nat → Option Nat
  srcSize : Option Nat

/-- An in-memory buffer (`Vec<u8>` / a file of known length) as a source. -/
def ByteSrc.ofBytes (bs : Bytes) : ByteSrc where
  readByte p := bs[p]?
  srcSize := some bs.length

/-- `Slice::new(src, off, lim)`: reads are shifted by `off` and, when a length
ceiling is given, bounded by it; `size()` is the ceiling when given, otherwise
whatever remains of the underlying source. -/
def ByteSrc.slice (src : ByteSrc) (off : Nat) (lim : Option Nat) : ByteSrc where
  readByte p :=
    match lim with
    | some l => if p < l then src.readByte (off + p) else none
    | none => src.readByte (off + p)
  srcSize :=
    match lim with
    | some l => some l
    | none => Option.map (fun s => s - off) src.srcSize

/-- `Reader::u8`. -/
def Reader.u8 (r : ByteSrc) (off : Nat) : Option Nat :=
  r.readByte off

/-- `Reader::u16`: two bytes, little-endian. -/
def Reader.u16 (r : ByteSrc) (off : Nat) : Option Nat := do
  let b0 ← r.readByte off
  let b1 ← r.readByte (off + 1)
  pure (b0 + 256 * b1)

/-- `Reader::u32`: four bytes, little-endian. -/
def Reader.u32 (r : ByteSrc) (off : Nat) : Option Nat := do
  let b0 ← r.readByte off
  let b1 ← r.readByte (off + 1)
  let b2 ← r.readByte (off + 2)
  let b3 ← r.readByte (off + 3)
  pure (b0 + 256 * b1 + 65536 * b2 + 16777216 * b3)

/-- `Reader::u64_lohi`: `(hi as u64) << 32 | lo as u64`. -/
def Reader.u64_lohi (r : ByteSrc) (lo hi : Nat) : Option Nat := do
  let l ← Reader.u32 r lo
  let h ← Reader.u32 r hi
  pure ((h <<< 32) ||| l)

/-- `Reader::vec`: `len` consecutive bytes starting at `off`
(`read_exact_at`). -/
def Reader.vec (r : ByteSrc) : Nat → Nat → Option Bytes
  | _, 0 => some []
  | off, n + 1 => do
    let b ← r.readByte off
    let rest ← Reader.vec r (off + 1) n
    pure (b :: rest)

structure SuperBlock where
  magic : Nat
  block_size : Nat
  block_per_group : Nat
  inode_per_group : Nat
  inode_size : Nat
deriving DecidableEq

/-- `SuperBlock::new`: decodes geometry from byte 1024 of the device.
The decoded `magic` is stored but (as in the source) never compared
against `0xEF53`. -/
def SuperBlock.new (dev : ByteSrc) : RResult SuperBlock := do
  let r := ByteSrc.slice dev 1024 none
  let magic ← liftRead (Reader.u16 r 0x38)
  let lg ← liftRead (Reader.u32 r 0x18)
  let block_size := 2 ^ (10 + lg)
  let bpg ← liftRead (Reader.u32 r 0x20)
  let ipg ← liftRead (Reader.u32 r 0x28)
  let inode_size ← liftRead (Reader.u16 r 0x58)
  pure ⟨magic, block_size, bpg, ipg, inode_size⟩

structure BlockGroupDescriptor where
  inode_table : Nat
deriving DecidableEq

/-- Every single descriptor takes 64 bytes. -/
def BlockGroupDescriptor.SIZE : Nat := 64

/-- `BlockGroupDescriptor::new`. -/
def BlockGroupDescriptor.new (slice : ByteSrc) : RResult BlockGroupDescriptor := do
  let t ← liftRead (Reader.u64_lohi slice 0x8 0x28)
  pure ⟨t⟩

structure BlockGroupNumber where
  n : Nat
deriving DecidableEq

/-- `BlockGroupNumber::block_group_descriptor_slice`: the super block takes
one block, descriptors are packed after it with a 64-byte stride. -/
def BlockGroupNumber.block_group_descriptor_slice (g : BlockGroupNumber) (sb : SuperBlock)
    (dev : ByteSrc) : ByteSrc :=
  ByteSrc.slice dev (sb.block_size + g.n * BlockGroupDescriptor.SIZE) none

/-- `BlockGroupNumber::block_group_descriptor`. -/
def BlockGroupNumber.block_group_descriptor (g : BlockGroupNumber) (sb : SuperBlock)
    (dev : ByteSrc) : RResult BlockGroupDescriptor :=
  BlockGroupDescriptor.new (g.block_group_descriptor_slice sb dev)

structure InodeNumber where
  n : Nat
deriving DecidableEq

/-- `InodeNumber::block_group_number`: `(n - 1) / inode_per_group`.
Inode numbers are 1-based; theorems assume `1 ≤ n` (u64 subtraction) and
`0 < inode_per_group` (u64 division by zero panics, Nat division is total). -/
def InodeNumber.block_group_number (i : InodeNumber) (sb : SuperBlock) : BlockGroupNumber :=
  ⟨(i.n - 1) / sb.inode_per_group⟩

/-- `InodeNumber::inode_slice`: locates the inode record inside the group's
inode table. -/
def InodeNumber.inode_slice (i : InodeNumber) (sb : SuperBlock) (dev : ByteSrc) :
    RResult ByteSrc := do
  let bgd ← (i.block_group_number sb).block_group_descriptor sb dev
  let inode_table_offset := bgd.inode_table * sb.block_size
  let inode_index := (i.n - 1) % sb.inode_per_group
  let inode_offset := inode_table_offset + inode_index * sb.inode_size
  pure (ByteSrc.slice dev inode_offset (some sb.inode_size))

structure Inode where
  mode : Nat
  size : Nat
  block : Bytes
deriving DecidableEq

/-- `Inode::new`: mode, 36-bit size, and the 60-byte extent-tree root. -/
def Inode.new (slice : ByteSrc) : RResult Inode := do
  let mode ← liftRead (Reader.u16 slice 0x0)
  let size ← liftRead (Reader.u64_lohi slice 0x4 0x6C)
  let block ← liftRead (Reader.vec slice 0x28 60)
  pure ⟨mode, size, block⟩

/-- `InodeNumber::inode`. -/
def InodeNumber.inode (i : InodeNumber) (sb : SuperBlock) (dev : ByteSrc) : RResult Inode := do
  let slice ← i.inode_slice sb dev
  Inode.new slice

inductive FileType where
  | Fifo
  | CharacterDevice
  | Directory
  | BlockDevice
  | Regular
  | SymbolicLink
  | Socket
deriving DecidableEq

/-- `FileType::try_from` (num_enum `TryFromPrimitive` over the repr values). -/
def FileType.tryFrom (v : Nat) : Option FileType :=
  if v = 0x1000 then some .Fifo
  else if v = 0x2000 then some .CharacterDevice
  else if v = 0x4000 then some .Directory
  else if v = 0x6000 then some .BlockDevice
  else if v = 0x8000 then some .Regular
  else if v = 0xA000 then some .SymbolicLink
  else if v = 0xC000 then some .Socket
  else none

/-- `Inode::file_type`: `FileType::try_from(self.mode & 0xF000).unwrap()` —
the `unwrap` panics when the type code is not one of the seven variants. -/
def Inode.file_type (i : Inode) : RResult FileType :=
  match FileType.tryFrom (i.mode &&& 0xF000) with
  | some ft => .ok ft
  | none => .error .panicked

structure ExtentHeader where
  entries : Nat
  depth : Nat
deriving DecidableEq

/-- `ExtentHeader::new`: reads the magic and `assert_eq!(magic, 0xF30A)`
(a panic, not a returned error, when it differs); `entries` and `depth` are
decoded but nowhere validated. -/
def ExtentHeader.new (slice : ByteSrc) : RResult ExtentHeader := do
  let magic ← liftRead (Reader.u16 slice 0x0)
  if magic = 0xF30A then do
    let e ← liftRead (Reader.u16 slice 0x2)
    let d ← liftRead (Reader.u16 slice 0x6)
    pure ⟨e, d⟩
  else
    .error .panicked

structure Extent where
  len : Nat
  start : Nat
deriving DecidableEq

/-- `Extent::new`: the start block is split between upper 16 bits and lower
32 bits. -/
def Extent.new (slice : ByteSrc) : RResult Extent := do
  let l ← liftRead (Reader.u16 slice 0x4)
  let hi ← liftRead (Reader.u16 slice 0x6)
  let lo ← liftRead (Reader.u32 slice 0x8)
  pure ⟨l, (hi <<< 32) + lo⟩

/-- `Inode::data`: decodes the extent header (whose commented-out
depth/entries asserts do nothing) and the first extent, then
`assert_eq!(ext.len, 1)` before returning the device slice
`[start * block_size, start * block_size + len * block_size)`. -/
def Inode.data (i : Inode) (sb : SuperBlock) (dev : ByteSrc) : RResult ByteSrc := do
  let _ext_header ← ExtentHeader.new (ByteSrc.slice (ByteSrc.ofBytes i.block) 0 (some 12))
  let ext ← Extent.new (ByteSrc.slice (ByteSrc.ofBytes i.block) 12 (some 12))
  if ext.len = 1 then
    pure (ByteSrc.slice dev (ext.start * sb.block_size) (some (ext.len * sb.block_size)))
  else
    .error .panicked

/-- UTF-8 encoding of U+FFFD, the replacement character. -/
def repl : Bytes := [0xEF, 0xBF, 0xBD]

def isCont (b : Nat) : Bool := decide (0x80 ≤ b ∧ b ≤ 0xBF)

/-- Admissible second byte of a three-byte UTF-8 sequence with lead `b`. -/
def cont3 (b c : Nat) : Bool :=
  if b = 0xE0 then decide (0xA0 ≤ c ∧ c ≤ 0xBF)
  else if b = 0xED then decide (0x80 ≤ c ∧ c ≤ 0x9F)
  else decide (0x80 ≤ c ∧ c ≤ 0xBF)

/-- Admissible second byte of a four-byte UTF-8 sequence with lead `b`. -/
def cont4 (b c : Nat) : Bool :=
  if b = 0xF0 then decide (0x90 ≤ c ∧ c ≤ 0xBF)
  else if b = 0xF4 then decide (0x80 ≤ c ∧ c ≤ 0x8F)
  else decide (0x80 ≤ c ∧ c ≤ 0xBF)

/-- `String::from_utf8_lossy`, as a byte-level transformation: well-formed
UTF-8 sequences pass through, each maximal invalid subpart becomes one
U+FFFD (substitution of maximal subparts, as in Rust's std). -/
def utf8Lossy : Bytes → Bytes
  | [] => []
  | b :: rest =>
    if b ≤ 0x7F then b :: utf8Lossy rest
    else if b < 0xC2 then repl ++ utf8Lossy rest
    else if b ≤ 0xDF then
      match rest with
      | [] => repl
      | c1 :: r2 =>
        if isCont c1 then b :: c1 :: utf8Lossy r2
        else repl ++ utf8Lossy (c1 :: r2)
    else if b ≤ 0xEF then
      match rest with
      | [] => repl
      | c1 :: r2 =>
        if cont3 b c1 then
          match r2 with
          | [] => repl
          | c2 :: r3 =>
            if isCont c2 then b :: c1 :: c2 :: utf8Lossy r3
            else repl ++ utf8Lossy (c2 :: r3)
        else repl ++ utf8Lossy (c1 :: r2)
    else if b ≤ 0xF4 then
      match rest with
      | [] => repl
      | c1 :: r2 =>
        if cont4 b c1 then
          match r2 with
          | [] => repl
          | c2 :: r3 =>
            if isCont c2 then
              match r3 with
              | [] => repl
              | c3 :: r4 =>
                if isCont c3 then b :: c1 :: c2 :: c3 :: utf8Lossy r4
                else repl ++ utf8Lossy (c3 :: r4)
            else repl ++ utf8Lossy (c2 :: r3)
        else repl ++ utf8Lossy (c1 :: r2)
    else repl ++ utf8Lossy rest

structure DirectoryEntry where
  len : Nat
  inode : InodeNumber
  name : Bytes
deriving DecidableEq

/-- `DirectoryEntry::new`: record length, child inode number, and the name
(`name_length` bytes at offset 8, decoded with `from_utf8_lossy`). -/
def DirectoryEntry.new (slice : ByteSrc) : RResult DirectoryEntry := do
  let name_len ← liftRead (Reader.u8 slice 0x6)
  let ino ← liftRead (Reader.u32 slice 0x0)
  let len ← liftRead (Reader.u16 slice 0x4)
  let raw ← liftRead (Reader.vec slice 0x8 name_len)
  pure ⟨len, ⟨ino⟩, utf8Lossy raw⟩

/-- The `loop` body of `Inode::dir_entries`, with explicit fuel: starting from
`offset`, repeatedly decode one record and advance by its `len` until the
cursor reaches `total`. `none` means the loop did not finish within `fuel`
iterations (the source loop has no other exit than `offset >= total` or a
decode error). -/
def dirLoopF (data : ByteSrc) (total : Nat) :
    Nat → Nat → List DirectoryEntry → Option (RResult (List DirectoryEntry))
  | 0, _, _ => none
  | fuel + 1, offset, entries =>
    if offset ≥ total then some (.ok entries)
    else
      match DirectoryEntry.new (ByteSrc.slice data offset none) with
      | .error e => some (.error e)
      | .ok entry => dirLoopF data total fuel (offset + entry.len) (entries ++ [entry])

/-- `Inode::dir_entries`: resolves the inode's data view, takes its size
(`expect`/`unwrap` panic when absent), and runs the cursor loop. -/
def Inode.dir_entries (i : Inode) (sb : SuperBlock) (dev : ByteSrc) (fuel : Nat) :
    Option (RResult (List DirectoryEntry)) :=
  match i.data sb dev with
  | .error e => some (.error e)
  | .ok data =>
    match data.srcSize with
    | none => some (.error .panicked)
    | some total => dirLoopF data total fuel 0 []

/-- `Inode::find_entry_name`: first directory entry whose decoded name equals
the sought name, in on-disk order. -/
def Inode.find_entry_name (i : Inode) (sb : SuperBlock) (dev : ByteSrc) (nm : Bytes)
    (fuel : Nat) : Option (RResult (Option InodeNumber)) :=
  match i.dir_entries sb dev fuel with
  | none => none
  | some (.error e) => some (.error e)
  | some (.ok entries) =>
    some (.ok (((entries.filter fun x => x.name == nm).map fun x => x.inode).head?))

/-- A byte string that is one packed directory record: the name declared at
offset 6 lies inside it, and its `record_length` field (offset 4, LE 16-bit)
is exactly its byte length. -/
def packedRecord (r : Bytes) : Prop :=
  8 + r.getD 6 0 ≤ r.length ∧ r.getD 4 0 + 256 * r.getD 5 0 = r.length

instance (r : Bytes) : Decidable (packedRecord r) := by
  unfold packedRecord; infer_instance

/-- The directory entry a packed record decodes to. -/
def recordEntry (r : Bytes) : DirectoryEntry :=
  ⟨r.getD 4 0 + 256 * r.getD 5 0,
   ⟨r.getD 0 0 + 256 * r.getD 1 0 + 65536 * r.getD 2 0 + 16777216 * r.getD 3 0⟩,
   utf8Lossy ((r.drop 8).take (r.getD 6 0))⟩

/-! Concrete fixtures for the claim theorems and witnesses. -/

/-- An all-zero device, long enough for every superblock field read. Its
superblock magic field decodes to 0, not 0xEF53. -/
def zeroDev : ByteSrc := ByteSrc.ofBytes (List.replicate 1120 0)

/-- A device that is never actually read in the extent theorems (building a
`Slice` does not touch the underlying source). -/
def emptyDev : ByteSrc := ByteSrc.ofBytes []

/-- Geometry with 1024-byte blocks. -/
def sb1024 : SuperBlock := ⟨0xEF53, 1024, 8192, 8192, 256⟩

/-- Geometry with 4096-byte blocks (the spec's round-trip scenario). -/
def sb4096 : SuperBlock := ⟨0xEF53, 4096, 8192, 8192, 256⟩

/-- Small geometry for the inode-arithmetic witness: block_size 1,
4 inodes per group, inode_size 2. -/
def c3sb : SuperBlock := ⟨0xEF53, 1, 8, 4, 2⟩

/-- All-zero device large enough for the group-descriptor reads of `c3sb`. -/
def c3dev : ByteSrc := ByteSrc.ofBytes (List.replicate 200 0)

/-- Extent root: valid magic 0xF30A, entry_count = 2, depth = 0, first leaf
extent len = 1 starting at block 5. -/
def multiEntryBlock : Bytes :=
  [0x0A, 0xF3, 2, 0, 0, 0, 0, 0, 0, 0, 0, 0] ++
  [0, 0, 0, 0, 1, 0, 0, 0, 5, 0, 0, 0] ++ List.replicate 36 0

/-- A directory inode carrying `multiEntryBlock` as its extent root. -/
def multiEntryInode : Inode := ⟨0x4000, 24, multiEntryBlock⟩

/-- Extent root whose header magic is 0, not 0xF30A. -/
def badMagicBlock : Bytes :=
  [0, 0, 2, 0, 0, 0, 0, 0, 0, 0, 0, 0] ++
  [0, 0, 0, 0, 1, 0, 0, 0, 5, 0, 0, 0] ++ List.replicate 36 0

/-- Extent root: valid magic, entry_count = 1, depth = 0, single extent with
logical_length = 2 starting at block 5 (the spec's round-trip extent). -/
def extLen2Block : Bytes :=
  [0x0A, 0xF3, 1, 0, 0, 0, 0, 0, 0, 0, 0, 0] ++
  [0, 0, 0, 0, 2, 0, 0, 0, 5, 0, 0, 0] ++ List.replicate 36 0

/-- A regular-file inode of size 11 whose extent root is `extLen2Block`. -/
def extLen2Inode : Inode := ⟨0x8000, 11, extLen2Block⟩

/-- Geometry with 16-byte blocks, for the corrupt-directory fixtures. -/
def c4sb : SuperBlock := ⟨0xEF53, 16, 8192, 8192, 128⟩

/-- Extent root: valid magic, entry_count = 1, depth = 0, one extent of
logical_length 1 starting at block 0. -/
def startZeroBlock : Bytes :=
  [0x0A, 0xF3, 1, 0, 0, 0, 0, 0, 0, 0, 0, 0] ++
  [0, 0, 0, 0, 1, 0, 0, 0, 0, 0, 0, 0] ++ List.replicate 36 0

/-- A directory inode whose data is block 0 of the device. -/
def c4inode : Inode := ⟨0x4000, 16, startZeroBlock⟩

/-- A 16-byte directory block whose sole record has record_length = 0. -/
def c4dev : ByteSrc :=
  ByteSrc.ofBytes ([7, 0, 0, 0, 0, 0, 0, 0] ++ List.replicate 8 0)

/-- The data view `Inode::data` resolves for `c4inode` over `c4dev`. -/
def c4data : ByteSrc := ByteSrc.slice c4dev 0 (some 16)

/-- A 16-byte directory block whose sole record claims record_length = 20,
past the declared total size of 16. -/
def c4odev : ByteSrc :=
  ByteSrc.ofBytes ([7, 0, 0, 0, 20, 0, 0, 0] ++ List.replicate 8 0)

/-- Geometry with 32-byte blocks, for the name-lookup fixtures. -/
def c6sb : SuperBlock := ⟨0xEF53, 32, 8192, 8192, 128⟩

/-- Extent root: valid magic, one leaf extent of logical_length 1 starting at
block 1. -/
def startOneBlock : Bytes :=
  [0x0A, 0xF3, 1, 0, 0, 0, 0, 0, 0, 0, 0, 0] ++
  [0, 0, 0, 0, 1, 0, 0, 0, 1, 0, 0, 0] ++ List.replicate 36 0

/-- A directory inode whose data is block 1 of the device. -/
def c6inode : Inode := ⟨0x4000, 32, startOneBlock⟩

/-- First packed record of the lookup directory: inode 11, length 16,
name "abc". -/
def c6rec1 : Bytes := [11, 0, 0, 0, 16, 0, 3, 0, 97, 98, 99, 0, 0, 0, 0, 0]

/-- Second packed record of the lookup directory: inode 22, length 16,
name "xyz". -/
def c6rec2 : Bytes := [22, 0, 0, 0, 16, 0, 3, 0, 120, 121, 122, 0, 0, 0, 0, 0]

/-- Device: one zero block, then the two-record directory block. -/
def c6dev : ByteSrc := ByteSrc.ofBytes (List.replicate 32 0 ++ (c6rec1 ++ c6rec2))

/-- The decoded first lookup entry. -/
def c6e1 : DirectoryEntry := ⟨16, ⟨11⟩, [97, 98, 99]⟩

/-- The decoded second lookup entry. -/
def c6e2 : DirectoryEntry := ⟨16, ⟨22⟩, [120, 121, 122]⟩

/-! Claim theorems. -/

/-- C1: the claim says superblock decoding fails with a structural error
whenever the magic field is not 0xEF53. The code never checks the magic: on
an all-zero device (magic field 0 ≠ 0xEF53) `SuperBlock::new` still returns a
`SuperBlock` value, with the bad magic stored and geometry decoded from
unvalidated bytes. -/
theorem superblock_magic_not_validated :
    SuperBlock.new zeroDev = .ok ⟨0, 1024, 0, 0, 0⟩ ∧ (0 : Nat) ≠ 0xEF53 :=
  ⟨rfl, by decide⟩

/-- C2: the claim says a header with depth ≠ 0, entry_count ≠ 1 or bad magic
yields an unsupported-structure error, never a panic, and is never silently
resolved through its first entry. The code does the opposite: on an extent
root with entry_count = 2 (depth 0, valid magic) the header decodes fine and
`Inode::data` silently resolves using only the first entry, returning a data
view; and on magic ≠ 0xF30A `ExtentHeader::new` panics (`assert_eq!`) instead
of returning an error. -/
theorem extent_invalid_header_behavior :
    ExtentHeader.new (ByteSrc.slice (ByteSrc.ofBytes multiEntryBlock) 0 (some 12)) = .ok ⟨2, 0⟩ ∧
    Inode.data multiEntryInode sb1024 emptyDev = .ok (ByteSrc.slice emptyDev 5120 (some 1024)) ∧
    ExtentHeader.new (ByteSrc.slice (ByteSrc.ofBytes badMagicBlock) 0 (some 12)) =
      .error .panicked :=
  ⟨rfl, rfl, rfl⟩

/-- C5: the claim's round-trip uses an extent with start_block = 5 and
logical_length = 2 under block_size = 4096. The code decodes that extent as
⟨len 2, start 5⟩ and then panics on `assert_eq!(ext.len, 1)`: resolution never
returns the two-block view, so no read of `size` bytes can ever happen. -/
theorem extent_len2_roundtrip_panics :
    Extent.new (ByteSrc.slice (ByteSrc.ofBytes extLen2Block) 12 (some 12)) = .ok ⟨2, 5⟩ ∧
    Inode.data extLen2Inode sb4096 emptyDev = .error .panicked :=
  ⟨rfl, rfl⟩

/-- C7: the claim says an unrecognized file-type code is a structural error
rather than a crash. The code maps the seven known codes correctly but calls
`.unwrap()` on the `try_from` result, so a mode with type code 0x0 panics
instead of returning an error. -/
theorem file_type_unwrap_crashes :
    Inode.file_type ⟨0x1000, 0, []⟩ = .ok .Fifo ∧
    Inode.file_type ⟨0x2000, 0, []⟩ = .ok .CharacterDevice ∧
    Inode.file_type ⟨0x41FF, 0, []⟩ = .ok .Directory ∧
    Inode.file_type ⟨0x6000, 0, []⟩ = .ok .BlockDevice ∧
    Inode.file_type ⟨0x81A4, 0, []⟩ = .ok .Regular ∧
    Inode.file_type ⟨0xA000, 0, []⟩ = .ok .SymbolicLink ∧
    Inode.file_type ⟨0xC000, 0, []⟩ = .ok .Socket ∧
    Inode.file_type ⟨0x0000, 0, []⟩ = .error .panicked :=
  ⟨rfl, rfl, rfl, rfl, rfl, rfl, rfl, rfl⟩

/-- C8: the claim states block_size = 1024 << (10 + log2_field). On a device
whose log2_block_size field is 0 the code decodes block_size = 1024, while
1024 << (10 + 0) = 1048576, so the claim's formula is wrong. -/
theorem block_size_formula_counterexample :
    SuperBlock.new zeroDev = .ok ⟨0, 1024, 0, 0, 0⟩ ∧ (1024 : Nat) ≠ 1024 <<< (10 + 0) :=
  ⟨rfl, by decide⟩

/-- C8 (amended): for every device whose superblock decodes successfully, the
decoded block_size equals 1024 << log2_field, i.e. 2 ^ (10 + log2_field) —
the shift is by the field itself, not by 10 + field. -/
theorem block_size_eq_shift (dev : ByteSrc) (f : Nat) (sb : SuperBlock)
    (hf : Reader.u32 (ByteSrc.slice dev 1024 none) 0x18 = some f)
    (h : SuperBlock.new dev = .ok sb) :
    sb.block_size = 1024 <<< f := by
  rcases hm : Reader.u16 (ByteSrc.slice dev 1024 none) 0x38 with _ | m <;>
  rcases h2 : Reader.u32 (ByteSrc.slice dev 1024 none) 0x20 with _ | bpg <;>
  rcases h3 : Reader.u32 (ByteSrc.slice dev 1024 none) 0x28 with _ | ipg <;>
  rcases h4 : Reader.u16 (ByteSrc.slice dev 1024 none) 0x58 with _ | isz <;>
  simp only [SuperBlock.new, hm, hf, h2, h3, h4, liftRead, bind, Except.bind, pure,
    Except.pure] at h <;>
  cases h
  rw [Nat.shiftLeft_eq, pow_add]
  norm_num

/-- Witness for C8 (amended) at the all-zero device: the field is 0 and the
decoded block_size is 1024 = 1024 << 0. -/
theorem block_size_eq_shift_witness :
    SuperBlock.new zeroDev = .ok ⟨0, 1024, 0, 0, 0⟩ ∧
    (⟨0, 1024, 0, 0, 0⟩ : SuperBlock).block_size = 1024 <<< 0 :=
  ⟨rfl, block_size_eq_shift zeroDev 0 ⟨0, 1024, 0, 0, 0⟩ rfl rfl⟩

/-- C3: for every inode number n ≥ 1 and geometry with inode_per_group > 0,
the owning group is (n-1)/inode_per_group, the index within the group is
(n-1)%inode_per_group (strictly less than inode_per_group), and the inode's
slice starts at inode_table * block_size + index * inode_size with length
inode_size. -/
theorem inode_locate_arithmetic (n t : Nat) (sb : SuperBlock) (dev : ByteSrc)
    (_hn : 1 ≤ n) (hipg : 0 < sb.inode_per_group)
    (hbgd : (InodeNumber.block_group_number ⟨n⟩ sb).block_group_descriptor sb dev = .ok ⟨t⟩) :
    InodeNumber.block_group_number ⟨n⟩ sb = ⟨(n - 1) / sb.inode_per_group⟩ ∧
    (n - 1) % sb.inode_per_group < sb.inode_per_group ∧
    InodeNumber.inode_slice ⟨n⟩ sb dev =
      .ok (ByteSrc.slice dev
        (t * sb.block_size + ((n - 1) % sb.inode_per_group) * sb.inode_size)
        (some sb.inode_size)) := by
  refine ⟨rfl, Nat.mod_lt _ hipg, ?_⟩
  simp only [InodeNumber.inode_slice, hbgd, bind, Except.bind, pure, Except.pure]

/-- Witness for C3: inode 10 with 4 inodes per group lands in group 2 at
index 1; over the all-zero device the group's inode table is block 0 and the
slice starts at byte 0 * 1 + 1 * 2 = 2 with length 2. -/
theorem inode_locate_arithmetic_witness :
    InodeNumber.block_group_number ⟨10⟩ c3sb = ⟨(10 - 1) / c3sb.inode_per_group⟩ ∧
    (10 - 1) % c3sb.inode_per_group < c3sb.inode_per_group ∧
    InodeNumber.inode_slice ⟨10⟩ c3sb c3dev =
      .ok (ByteSrc.slice c3dev
        (0 * c3sb.block_size + ((10 - 1) % c3sb.inode_per_group) * c3sb.inode_size)
        (some c3sb.inode_size)) :=
  inode_locate_arithmetic 10 0 c3sb c3dev (by decide) (by decide) rfl

/-- The cursor loop over `c4data` (first record_length = 0) never moves:
whatever the fuel and accumulator, it runs out of fuel. -/
theorem c4loop (fuel : Nat) : ∀ acc, dirLoopF c4data 16 fuel 0 acc = none := by
  induction fuel with
  | zero => intro acc; rfl
  | succ m ih => intro acc; exact ih (acc ++ [⟨0, ⟨7⟩, []⟩])

/-- C4: the claim says a record whose record_length is zero, or runs past the
declared total size, makes iteration fail with a structural error and never
loop forever. The code has no such checks: over `c4dev` (first record_length
0) the loop never terminates for any fuel, and over `c4odev` (record_length
20 against total size 16) it silently returns that record with no error. -/
theorem dir_entries_corrupt_reclen_behavior :
    (∀ fuel, Inode.dir_entries c4inode c4sb c4dev fuel = none) ∧
    Inode.dir_entries c4inode c4sb c4odev 2 = some (.ok [⟨20, ⟨7⟩, []⟩]) := by
  refine ⟨fun fuel => ?_, rfl⟩
  exact c4loop fuel []

/-- C10: `Inode::data` panics (`assert_eq!(ext.len, 1)`) whenever the decoded
extent's logical_length differs from 1, so an inode whose extent spans two or
more blocks can never have its data resolved; and whenever a data view is
returned, its length is exactly one block_size. -/
theorem data_view_single_block (i : Inode) (sb : SuperBlock) (dev : ByteSrc)
    (hdr : ExtentHeader) (ext : Extent)
    (hh : ExtentHeader.new (ByteSrc.slice (ByteSrc.ofBytes i.block) 0 (some 12)) = .ok hdr)
    (he : Extent.new (ByteSrc.slice (ByteSrc.ofBytes i.block) 12 (some 12)) = .ok ext) :
    (ext.len ≠ 1 → i.data sb dev = .error .panicked) ∧
    (∀ view, i.data sb dev = .ok view → ext.len = 1 ∧ view.srcSize = some sb.block_size) := by
  have hd : i.data sb dev = if ext.len = 1
      then .ok (ByteSrc.slice dev (ext.start * sb.block_size) (some (ext.len * sb.block_size)))
      else .error .panicked := by
    simp only [Inode.data, hh, he, bind, Except.bind, pure, Except.pure]
  constructor
  · intro hne; rw [hd, if_neg hne]
  · intro view hv
    rw [hd] at hv
    by_cases h1 : ext.len = 1
    · rw [if_pos h1] at hv
      refine ⟨h1, ?_⟩
      cases hv
      simp [ByteSrc.slice, h1]
    · rw [if_neg h1] at hv
      exact absurd hv (by simp)

/-- Witness for C10 at the length-2 extent fixture: the header and extent
decode to ⟨1, 0⟩ and ⟨2, 5⟩, and since 2 ≠ 1 resolution panics. -/
theorem data_view_single_block_witness :
    Inode.data extLen2Inode sb4096 emptyDev = .error .panicked :=
  (data_view_single_block extLen2Inode sb4096 emptyDev ⟨1, 0⟩ ⟨2, 5⟩ rfl rfl).1 (by decide)

/-- C6: whenever the parent's directory entries decode to `entries`,
`find_entry_name` returns none when no entry's decoded name equals the sought
name, and returns the inode number of the first matching entry (in on-disk
order) when one exists. -/
theorem find_entry_first_match (i : Inode) (sb : SuperBlock) (dev : ByteSrc) (nm : Bytes)
    (fuel : Nat) (entries : List DirectoryEntry)
    (h : Inode.dir_entries i sb dev fuel = some (.ok entries)) :
    ((∀ e ∈ entries, e.name ≠ nm) → Inode.find_entry_name i sb dev nm fuel = some (.ok none)) ∧
    (∀ l1 e l2, entries = l1 ++ e :: l2 → e.name = nm → (∀ x ∈ l1, x.name ≠ nm) →
      Inode.find_entry_name i sb dev nm fuel = some (.ok (some e.inode))) := by
  have hf : Inode.find_entry_name i sb dev nm fuel
      = some (.ok (((entries.filter fun x => x.name == nm).map fun x => x.inode).head?)) := by
    unfold Inode.find_entry_name
    rw [h]
  constructor
  · intro hnone
    rw [hf]
    have hnil : entries.filter (fun x => x.name == nm) = [] := by
      rw [List.filter_eq_nil_iff]
      intro a ha
      simpa using hnone a ha
    rw [hnil]
    rfl
  · intro l1 e l2 hsplit he hl1
    subst hsplit
    rw [hf]
    have h1 : l1.filter (fun x => x.name == nm) = [] := by
      rw [List.filter_eq_nil_iff]
      intro a ha
      simpa using hl1 a ha
    rw [List.filter_append, h1, List.nil_append,
      List.filter_cons_of_pos (by simpa using he)]
    rfl

/-- Witness for C6: in the two-entry directory ("abc" → 11, "xyz" → 22),
looking up "xyz" (bytes [120, 121, 122]) returns inode 22, the first — and
only — match, skipping the non-matching first entry. -/
theorem find_entry_first_match_witness :
    Inode.find_entry_name c6inode c6sb c6dev [120, 121, 122] 3 = some (.ok (some ⟨22⟩)) :=
  (find_entry_first_match c6inode c6sb c6dev [120, 121, 122] 3 [c6e1, c6e2] rfl).2
    [c6e1] c6e2 [] rfl rfl (by decide)

/-- Looking up a byte strictly inside the middle part of a three-part buffer. -/
theorem append_getElem_mid (pre r tail : Bytes) (p : Nat) (hp : p < r.length) :
    (pre ++ (r ++ tail))[pre.length + p]? = some (r.getD p 0) := by
  have h1 : pre.length + p - pre.length = p := by omega
  rw [List.getElem?_append_right (Nat.le_add_right _ _), h1, List.getElem?_append,
    if_pos hp, List.getElem?_eq_getElem hp, List.getD_eq_getElem?_getD,
    List.getElem?_eq_getElem hp]
  rfl

/-- `Reader::vec` over the record in the middle of the buffer returns the
record's own bytes. -/
theorem vec_mid (pre r tail : Bytes) (n : Nat) :
    ∀ off, off + n ≤ r.length →
      Reader.vec (ByteSrc.slice (ByteSrc.ofBytes (pre ++ (r ++ tail))) pre.length none) off n
        = some ((r.drop off).take n) := by
  induction n with
  | zero => intro off _; simp [Reader.vec]
  | succ m ih =>
    intro off h
    have hoff : off < r.length := by omega
    have h1 : (ByteSrc.slice (ByteSrc.ofBytes (pre ++ (r ++ tail))) pre.length none).readByte off
        = some (r.getD off 0) := by
      show (pre ++ (r ++ tail))[pre.length + off]? = some (r.getD off 0)
      exact append_getElem_mid pre r tail off hoff
    have h2 := ih (off + 1) (by omega)
    rw [List.drop_eq_getElem_cons hoff, List.take_succ_cons]
    simp [Reader.vec, h1, h2, bind, Option.bind, List.getD_eq_getElem?_getD,
      List.getElem?_eq_getElem hoff]

/-- Decoding one directory record at cursor `pre.length` of a buffer that is
`pre` followed by a packed record `r` (and then anything) succeeds and yields
`recordEntry r`. -/
theorem entry_decode_at (pre r tail : Bytes) (hp : packedRecord r) :
    DirectoryEntry.new (ByteSrc.slice (ByteSrc.ofBytes (pre ++ (r ++ tail))) pre.length none)
      = .ok (recordEntry r) := by
  obtain ⟨h8, hlen⟩ := hp
  have hb : ∀ p, p < r.length →
      (ByteSrc.slice (ByteSrc.ofBytes (pre ++ (r ++ tail))) pre.length none).readByte p
        = some (r.getD p 0) := by
    intro p hplt
    show (pre ++ (r ++ tail))[pre.length + p]? = some (r.getD p 0)
    exact append_getElem_mid pre r tail p hplt
  have hv := vec_mid pre r tail (r.getD 6 0) 8 (by omega)
  simp only [List.getD_eq_getElem?_getD] at hv
  simp [DirectoryEntry.new, Reader.u8, Reader.u16, Reader.u32,
    hb 0 (by omega), hb 1 (by omega), hb 2 (by omega), hb 3 (by omega),
    hb 4 (by omega), hb 5 (by omega), hb 6 (by omega),
    hv, liftRead, bind, Option.bind, Except.bind, pure, Except.pure, recordEntry]

/-- Loop invariant for C9: with the cursor at the end of `pre` and the packed
records `rs` filling the rest of the buffer exactly, the loop consumes one
record per iteration and ends with the cursor exactly at the total size. -/
theorem dirLoopF_packed (rs : List Bytes) :
    ∀ (pre : Bytes) (acc : List DirectoryEntry) (fuel : Nat),
      (∀ r ∈ rs, packedRecord r) → rs.length < fuel →
      dirLoopF (ByteSrc.ofBytes (pre ++ rs.flatten)) (pre.length + rs.flatten.length) fuel
          pre.length acc
        = some (.ok (acc ++ rs.map recordEntry)) := by
  induction rs with
  | nil =>
    intro pre acc fuel _ hfuel
    cases fuel with
    | zero => omega
    | succ m => simp [dirLoopF]
  | cons r rest ih =>
    intro pre acc fuel hpk hfuel
    cases fuel with
    | zero => omega
    | succ m =>
      have hp := hpk r (List.mem_cons_self r rest)
      have hr8 : 8 ≤ r.length := by
        have := hp.1
        omega
      have hcond : ¬ (pre.length ≥ pre.length + ((r :: rest).flatten).length) := by
        simp only [List.flatten_cons, List.length_append]
        omega
      have hdec : DirectoryEntry.new
          (ByteSrc.slice (ByteSrc.ofBytes (pre ++ (r :: rest).flatten)) pre.length none)
          = .ok (recordEntry r) := by
        rw [List.flatten_cons]
        exact entry_decode_at pre r rest.flatten hp
      have hlen : (recordEntry r).len = r.length := hp.2
      rw [dirLoopF, if_neg hcond]
      simp only [hdec]
      have e1 : pre ++ (r :: rest).flatten = (pre ++ r) ++ rest.flatten := by
        rw [List.flatten_cons, List.append_assoc]
      have e2 : pre.length + ((r :: rest).flatten).length
          = (pre ++ r).length + rest.flatten.length := by
        simp only [List.flatten_cons, List.length_append]
        omega
      have e3 : pre.length + (recordEntry r).len = (pre ++ r).length := by
        rw [hlen, List.length_append]
      have e4 : acc ++ (r :: rest).map recordEntry
          = (acc ++ [recordEntry r]) ++ rest.map recordEntry := by
        simp
      rw [e1, e2, e3, e4]
      exact ih (pre ++ r) (acc ++ [recordEntry r]) m
        (fun x hx => hpk x (List.mem_cons_of_mem _ hx))
        (by simp only [List.length_cons] at hfuel; omega)

/-- The decoded entries of packed records carry exactly the records' lengths,
so their record_length values sum to the whole buffer. -/
theorem sum_recordEntry_len (rs : List Bytes) :
    (∀ r ∈ rs, packedRecord r) →
    ((rs.map recordEntry).map fun e => e.len).sum = rs.flatten.length := by
  induction rs with
  | nil => intro _; simp
  | cons r rest ih =>
    intro h
    simp only [List.map_cons, List.sum_cons, List.flatten_cons, List.length_append]
    rw [ih (fun x hx => h x (List.mem_cons_of_mem _ hx))]
    have h2 := (h r (List.mem_cons_self r rest)).2
    simp only [recordEntry]
    omega

/-- C9: over a buffer whose packed records' record_length values sum exactly
to the declared total size, the iteration terminates (with any fuel beyond the
record count), yields exactly one entry per packed record, and the consumed
record_length values sum exactly to the total size — the cursor stops exactly
at the declared end with zero leftover bytes. -/
theorem dir_iteration_exact (rs : List Bytes) (fuel : Nat)
    (h : ∀ r ∈ rs, packedRecord r) (hfuel : rs.length < fuel) :
    dirLoopF (ByteSrc.ofBytes rs.flatten) rs.flatten.length fuel 0 []
      = some (.ok (rs.map recordEntry))
    ∧ (rs.map recordEntry).length = rs.length
    ∧ ((rs.map recordEntry).map fun e => e.len).sum = rs.flatten.length := by
  refine ⟨?_, by simp, sum_recordEntry_len rs h⟩
  have hmain := dirLoopF_packed rs [] [] fuel h hfuel
  simpa using hmain

/-- Witness for C9 at the two packed 16-byte records of the lookup directory:
iteration with fuel 3 yields both entries and their lengths sum to 32. -/
theorem dir_iteration_exact_witness :
    dirLoopF (ByteSrc.ofBytes ([c6rec1, c6rec2].flatten)) ([c6rec1, c6rec2].flatten).length 3 0 []
      = some (.ok ([c6rec1, c6rec2].map recordEntry))
    ∧ ([c6rec1, c6rec2].map recordEntry).length = [c6rec1, c6rec2].length
    ∧ (([c6rec1, c6rec2].map recordEntry).map fun e => e.len).sum
      = ([c6rec1, c6rec2].flatten).length :=
  dir_iteration_exact [c6rec1, c6rec2] 3 (by decide) (by decide)
